import Mathlib

/-!
Verification of the Nexus course-enrollment core: a shallow embedding of the
enrollment transaction (src/services/student_service.py), the admin override
path (src/services/admin_service.py) and the record store they share
(src/shared/database.py, src/shared/models.py), with theorems settling the
spec's claims about them.

The in-process record store keeps one Python dict per entity kind, keyed by
id, mirrored to SQLite on every write; since every mutation goes through the
save helpers that keep dict and database identical, the embedding models the
store as one association list per entity kind.  Python dicts preserve
insertion order; `upsert` replaces the value at an existing key in place and
appends a new key at the end, and `lookupId` returns the value at the first
matching key, exactly like dict indexing.
-/

namespace NexusEnroll

/-! ## Data model (src/shared/models.py) -/

inductive UserRole where
  | student
  | faculty
  | admin
deriving DecidableEq, Repr

structure User where
  id : String
  username : String
  email : String
  role : UserRole
  full_name : String
  is_active : Bool := true
deriving DecidableEq, Repr

structure Course where
  id : String
  course_code : String
  name : String
  description : String
  instructor_id : String
  instructor_name : String
  capacity : Int
  enrolled_count : Int := 0
  schedule : String
  location : String
  prerequisites : List String := []
  department : String
  credits : Int
deriving DecidableEq, Repr

/-- Enrollment dates are opaque to every operation verified here; they are
modelled as an abstract `Nat` timestamp. -/
structure Enrollment where
  id : String
  student_id : String
  course_id : String
  semester : String
  status : String := "enrolled"
  enrollment_date : Nat
deriving DecidableEq, Repr

structure Grade where
  id : String
  student_id : String
  course_id : String
  grade : String
  semester : String
  status : String := "pending"
  submitted_by : String
  submitted_date : Option Nat := none
deriving DecidableEq, Repr

structure EnrollmentRequest where
  student_id : String
  course_id : String
  semester : String
deriving DecidableEq, Repr

/-! ## Record store (src/shared/database.py) -/

/-- Python dict lookup `d.get(k)` / `d[k]` on an insertion-ordered dict. -/
def lookupId {α : Type} : List (String × α) → String → Option α
  | [], _ => none
  | (k, v) :: rest, key => if k == key then some v else lookupId rest key

/-- Python dict store `d[k] = v`: replace the value at an existing key in
place, append a fresh key at the end. -/
def upsert {α : Type} (key : String) (v : α) : List (String × α) → List (String × α)
  | [] => [(key, v)]
  | (k, w) :: rest => if k == key then (key, v) :: rest else (k, w) :: upsert key v rest

/-- Python `d.values()` on an insertion-ordered dict. -/
def dictValues {α : Type} (l : List (String × α)) : List α :=
  l.map Prod.snd

/-- Python `list(d.keys())` / the key set of an insertion-ordered dict. -/
def dictKeys {α : Type} (l : List (String × α)) : List String :=
  l.map Prod.fst

/-- The shared in-memory record store `db`: one dict per entity kind
(notifications are never touched by the enrollment core and are omitted). -/
structure SysState where
  users : List (String × User)
  courses : List (String × Course)
  enrollments : List (String × Enrollment)
  grades : List (String × Grade)
deriving DecidableEq, Repr

/-! ### Store lemmas -/

theorem lookupId_upsert_self {α : Type} (l : List (String × α)) (k : String) (v : α) :
    lookupId (upsert k v l) k = some v := by
  induction l with
  | nil => simp [upsert, lookupId]
  | cons p rest ih =>
    obtain ⟨k0, w⟩ := p
    by_cases h : k0 = k
    · simp [upsert, lookupId, h]
    · simp only [upsert, lookupId, beq_iff_eq, h, if_false]
      simpa [lookupId, h] using ih

theorem lookupId_upsert_ne {α : Type} (l : List (String × α)) (k k2 : String) (v : α)
    (h : k2 ≠ k) : lookupId (upsert k v l) k2 = lookupId l k2 := by
  induction l with
  | nil => simp [upsert, lookupId, Ne.symm h]
  | cons p rest ih =>
    obtain ⟨k0, w⟩ := p
    by_cases h0 : k0 = k
    · subst h0
      simp [upsert, lookupId, Ne.symm h]
    · simp only [upsert, beq_iff_eq, h0, if_false]
      by_cases h1 : k0 = k2
      · simp [lookupId, h1]
      · simp only [lookupId, beq_iff_eq, h1, if_false]
        exact ih

theorem upsert_of_not_mem {α : Type} (l : List (String × α)) (k : String) (v : α)
    (h : k ∉ dictKeys l) : upsert k v l = l ++ [(k, v)] := by
  induction l with
  | nil => simp [upsert]
  | cons p rest ih =>
    obtain ⟨k0, w⟩ := p
    simp only [dictKeys, List.map_cons, List.mem_cons, not_or] at h
    simp only [upsert, beq_iff_eq]
    rw [if_neg (fun hh => h.1 hh.symm)]
    simp [ih (by simpa [dictKeys] using h.2)]

theorem upsert_lookup_eq {α : Type} (l : List (String × α)) (k : String) (v : α)
    (h : lookupId l k = some v) : upsert k v l = l := by
  induction l with
  | nil => simp [lookupId] at h
  | cons p rest ih =>
    obtain ⟨k0, w⟩ := p
    by_cases h0 : k0 = k
    · subst h0
      simp only [lookupId, beq_self_eq_true, if_true, Option.some_inj] at h
      simp [upsert, h]
    · simp only [lookupId, beq_iff_eq, h0, if_false] at h
      simp [upsert, h0, ih h]

theorem lookupId_eq_none_iff {α : Type} (l : List (String × α)) (k : String) :
    lookupId l k = none ↔ k ∉ dictKeys l := by
  induction l with
  | nil => simp [lookupId, dictKeys]
  | cons p rest ih =>
    obtain ⟨k0, w⟩ := p
    by_cases h0 : k0 = k
    · simp [lookupId, dictKeys, h0]
    · simp [lookupId, dictKeys, h0, Ne.symm h0, ih]

theorem lookupId_mem_values {α : Type} (l : List (String × α)) (k : String) (v : α)
    (h : lookupId l k = some v) : v ∈ dictValues l := by
  induction l with
  | nil => simp [lookupId] at h
  | cons p rest ih =>
    obtain ⟨k0, w⟩ := p
    by_cases h0 : k0 = k
    · simp only [lookupId, h0, beq_self_eq_true, if_true, Option.some_inj] at h
      simp [dictValues, h]
    · simp only [lookupId, beq_iff_eq, h0, if_false] at h
      simp [dictValues] at ih ⊢
      exact Or.inr (ih h)

theorem dictKeys_upsert_mem {α : Type} (l : List (String × α)) (k : String) (v : α)
    (h : k ∈ dictKeys l) : dictKeys (upsert k v l) = dictKeys l := by
  induction l with
  | nil => simp [dictKeys] at h
  | cons p rest ih =>
    obtain ⟨k0, w⟩ := p
    by_cases h0 : k0 = k
    · simp [upsert, dictKeys, h0]
    · simp only [dictKeys, List.map_cons, List.mem_cons] at h
      rcases h with h | h
      · exact absurd h.symm h0
      · have ih2 := ih (by simpa [dictKeys] using h)
        simp only [dictKeys, List.map_cons] at ih2 ⊢
        simp [upsert, h0, ih2]

/-! ## Student service (src/services/student_service.py) -/

/-- The idiom `s.split()[0] if s.split() else ""` used on both schedule
strings in `has_time_conflict`: the first whitespace-delimited token of the
string, or "" when the string is empty or all whitespace (Python `split()`
with no argument splits on whitespace runs and drops empty pieces, so its
first element is the text after the leading whitespace run up to the next
whitespace character). -/
def firstToken (s : String) : String :=
  String.mk ((s.toList.dropWhile (fun c => c.isWhitespace)).takeWhile
    (fun c => !c.isWhitespace))

/-- `has_time_conflict` (student_service.py:179-192): compare the first
whitespace token of each schedule string character by character. -/
def has_time_conflict (schedule1 schedule2 : String) : Bool :=
  let days1 := firstToken schedule1
  let days2 := firstToken schedule2
  days1.toList.any (fun day => days2.toList.contains day)

/-- The duplicate-enrollment scan of `enroll_in_course`
(student_service.py:67-78), as a predicate on the enrollment dict values. -/
def hasDuplicateEnrollment (enrollmentList : List Enrollment) (req : EnrollmentRequest) : Bool :=
  enrollmentList.any (fun e =>
    e.student_id == req.student_id &&
    e.course_id == req.course_id &&
    e.semester == req.semester &&
    e.status == "enrolled")

/-- `student_completed_courses` of `enroll_in_course`
(student_service.py:84-90): course ids of the student's submitted grades in
{A, B, C, D}. -/
def completedCourses (gradeList : List Grade) (student_id : String) : List String :=
  (gradeList.filter (fun g =>
    g.student_id == student_id &&
    g.status == "submitted" &&
    (g.grade == "A" || g.grade == "B" || g.grade == "C" || g.grade == "D"))).map
    (fun g => g.course_id)

/-- The prerequisite loop of `enroll_in_course` (student_service.py:92-99):
the first course id in `course.prerequisites` missing from the completed
list, if any. -/
def firstUnmetPrereq (prereqs completed : List String) : Option String :=
  prereqs.find? (fun p => !(completed.contains p))

/-- The schedule-conflict loop of `enroll_in_course`
(student_service.py:101-113): among the student's enrollments for the
semester with status "enrolled", the course id of the first one whose course
record exists and whose schedule conflicts with the target course's. -/
def firstScheduleConflict (courses : List (String × Course)) (enrollmentList : List Enrollment)
    (course : Course) (student_id semester : String) : Option String :=
  (enrollmentList.filter (fun e =>
    e.student_id == student_id &&
    e.semester == semester &&
    e.status == "enrolled")).findSome? (fun e =>
      match lookupId courses e.course_id with
      | some enrolled_course =>
          if has_time_conflict course.schedule enrolled_course.schedule then
            some e.course_id
          else none
      | none => none)

/-- Outcome of `POST /enroll`; the error constructors carry the id that
determines the HTTP detail string. -/
inductive EnrollOutcome where
  | ok (enrollment_id : String)
  | courseNotFound
  | studentNotFound
  | alreadyEnrolled
  | courseFull
  | prerequisiteNotMet (prereq : String)
  | scheduleConflict (course_id : String)
deriving DecidableEq, Repr

/-- `enroll_in_course` (student_service.py:55-133).  `new_id` stands for the
freshly drawn `uuid.uuid4()` and `now` for `datetime.now()`; every raise in
the source happens before any store mutation, so every error branch returns
the state unchanged. -/
def enroll_in_course (s : SysState) (request : EnrollmentRequest) (new_id : String)
    (now : Nat) : EnrollOutcome × SysState :=
  match lookupId s.courses request.course_id with
  | none => (.courseNotFound, s)
  | some course =>
    match lookupId s.users request.student_id with
    | none => (.studentNotFound, s)
    | some _student =>
      if hasDuplicateEnrollment (dictValues s.enrollments) request then
        (.alreadyEnrolled, s)
      else if course.enrolled_count ≥ course.capacity then
        (.courseFull, s)
      else
        match firstUnmetPrereq course.prerequisites
            (completedCourses (dictValues s.grades) request.student_id) with
        | some prereq => (.prerequisiteNotMet prereq, s)
        | none =>
          match firstScheduleConflict s.courses (dictValues s.enrollments) course
              request.student_id request.semester with
          | some cid => (.scheduleConflict cid, s)
          | none =>
            let new_enrollment : Enrollment :=
              { id := new_id
                student_id := request.student_id
                course_id := request.course_id
                semester := request.semester
                status := "enrolled"
                enrollment_date := now }
            let s1 := { s with enrollments := upsert new_id new_enrollment s.enrollments }
            let course1 := { course with enrolled_count := course.enrolled_count + 1 }
            ( .ok new_id,
              { s1 with courses := upsert request.course_id course1 s1.courses } )

/-- Outcome of `DELETE /enroll/{enrollment_id}`. -/
inductive DropOutcome where
  | ok
  | enrollmentNotFound
deriving DecidableEq, Repr

/-- `drop_course` (student_service.py:135-150): look the enrollment up; if
its course record exists, clamp-decrement that course's `enrolled_count`;
then set the enrollment's status to "dropped".  The status of the enrollment
is never inspected. -/
def drop_course (s : SysState) (enrollment_id : String) : DropOutcome × SysState :=
  match lookupId s.enrollments enrollment_id with
  | none => (.enrollmentNotFound, s)
  | some enrollment =>
    let s1 :=
      match lookupId s.courses enrollment.course_id with
      | some course =>
          let course1 := { course with enrolled_count := max 0 (course.enrolled_count - 1) }
          { s with courses := upsert enrollment.course_id course1 s.courses }
      | none => s
    let enrollment1 := { enrollment with status := "dropped" }
    (.ok, { s1 with enrollments := upsert enrollment_id enrollment1 s1.enrollments })

/-! ## Admin service (src/services/admin_service.py) -/

/-- Outcome of `POST /enrollments/override`. -/
inductive ForceOutcome where
  | ok (enrollment_id : String)
  | studentNotFound
  | courseNotFound
deriving DecidableEq, Repr

/-- `force_enrollment` (admin_service.py:191-226): check only that the
student and the course exist, then create the enrollment (status "enrolled")
and increment the course's `enrolled_count`, with no conflict check at
all. -/
def force_enrollment (s : SysState) (student_id course_id semester : String)
    (new_id : String) (now : Nat) : ForceOutcome × SysState :=
  match lookupId s.users student_id with
  | none => (.studentNotFound, s)
  | some _student =>
    match lookupId s.courses course_id with
    | none => (.courseNotFound, s)
    | some course =>
      let new_enrollment : Enrollment :=
        { id := new_id
          student_id := student_id
          course_id := course_id
          semester := semester
          status := "enrolled"
          enrollment_date := now }
      let s1 := { s with enrollments := upsert new_id new_enrollment s.enrollments }
      let course1 := { course with enrolled_count := course.enrolled_count + 1 }
      ( .ok new_id,
        { s1 with courses := upsert course_id course1 s1.courses } )

/-! ## Derived-counter invariant (spec section 3) -/

/-- The number of Enrollments with the given course id and status "enrolled",
the quantity `count(enrolled Enrollments for C)` of the spec. -/
def enrolledCountFor (enrollmentList : List Enrollment) (course_id : String) : Int :=
  ((enrollmentList.filter (fun e =>
    e.course_id == course_id && e.status == "enrolled")).length : Int)

/-- The spec's central invariant: every stored course's `enrolled_count`
field equals the number of enrolled Enrollments for it. -/
def Consistent (s : SysState) : Prop :=
  ∀ p ∈ s.courses,
    (Prod.snd p).enrolled_count = enrolledCountFor (dictValues s.enrollments) (Prod.fst p)

/-- Structural well-formedness the Python dicts provide for free: keys are
pairwise distinct. -/
def WF (s : SysState) : Prop :=
  (dictKeys s.enrollments).Nodup ∧ (dictKeys s.courses).Nodup

/-- One successful operation of the enrollment core, success meaning the
HTTP request returns 200.  The `new_id ∉ dictKeys s.enrollments` side
conditions model the freshness of `uuid.uuid4()`. -/
inductive SuccStep : SysState → SysState → Prop where
  | enroll (s s2 : SysState) (request : EnrollmentRequest) (new_id : String) (now : Nat)
      (hfresh : new_id ∉ dictKeys s.enrollments)
      (h : enroll_in_course s request new_id now = (.ok new_id, s2)) : SuccStep s s2
  | drop (s s2 : SysState) (enrollment_id : String)
      (h : drop_course s enrollment_id = (.ok, s2)) : SuccStep s s2
  | force (s s2 : SysState) (student_id course_id semester new_id : String) (now : Nat)
      (hfresh : new_id ∉ dictKeys s.enrollments)
      (h : force_enrollment s student_id course_id semester new_id now = (.ok new_id, s2)) :
      SuccStep s s2

/-- Like `SuccStep`, but a Drop is only allowed on an enrollment whose
status is still "enrolled" — ruling out the double-drop path. -/
inductive FirstDropStep : SysState → SysState → Prop where
  | enroll (s s2 : SysState) (request : EnrollmentRequest) (new_id : String) (now : Nat)
      (hfresh : new_id ∉ dictKeys s.enrollments)
      (h : enroll_in_course s request new_id now = (.ok new_id, s2)) : FirstDropStep s s2
  | drop (s s2 : SysState) (enrollment_id : String) (e : Enrollment)
      (he : lookupId s.enrollments enrollment_id = some e)
      (hstatus : e.status = "enrolled")
      (h : drop_course s enrollment_id = (.ok, s2)) : FirstDropStep s s2
  | force (s s2 : SysState) (student_id course_id semester new_id : String) (now : Nat)
      (hfresh : new_id ∉ dictKeys s.enrollments)
      (h : force_enrollment s student_id course_id semester new_id now = (.ok new_id, s2)) :
      FirstDropStep s s2

/-! ## Inversion and construction lemmas for the operations -/

/-- The Enrollment record `enroll_in_course` and `force_enrollment` build on
success. -/
def newEnrollmentRecord (new_id student_id course_id semester : String) (now : Nat) :
    Enrollment :=
  { id := new_id
    student_id := student_id
    course_id := course_id
    semester := semester
    status := "enrolled"
    enrollment_date := now }

theorem enroll_ok_inversion (s s2 : SysState) (request : EnrollmentRequest)
    (new_id : String) (now : Nat)
    (h : enroll_in_course s request new_id now = (.ok new_id, s2)) :
    ∃ course, lookupId s.courses request.course_id = some course ∧
      (lookupId s.users request.student_id).isSome = true ∧
      hasDuplicateEnrollment (dictValues s.enrollments) request = false ∧
      course.enrolled_count < course.capacity ∧
      firstUnmetPrereq course.prerequisites
        (completedCourses (dictValues s.grades) request.student_id) = none ∧
      firstScheduleConflict s.courses (dictValues s.enrollments) course
        request.student_id request.semester = none ∧
      s2 = { s with
        enrollments := upsert new_id
          (newEnrollmentRecord new_id request.student_id request.course_id
            request.semester now) s.enrollments
        courses := upsert request.course_id
          ({ course with enrolled_count := course.enrolled_count + 1 }) s.courses } := by
  unfold enroll_in_course at h
  split at h
  · simp at h
  case _ course hc =>
    split at h
    · simp at h
    case _ user hu =>
      split at h
      · simp at h
      case _ hdup =>
        split at h
        · simp at h
        case _ hcap =>
          split at h
          · simp at h
          case _ hpre =>
            split at h
            · simp at h
            case _ hsch =>
              refine ⟨course, hc, by simp [hu], by simpa using hdup, by omega, hpre, hsch, ?_⟩
              simp only [Prod.mk.injEq] at h
              exact h.2.symm

theorem enroll_ok_construction (s : SysState) (request : EnrollmentRequest)
    (new_id : String) (now : Nat) (course : Course)
    (hc : lookupId s.courses request.course_id = some course)
    (hu : (lookupId s.users request.student_id).isSome = true)
    (hdup : hasDuplicateEnrollment (dictValues s.enrollments) request = false)
    (hcap : course.enrolled_count < course.capacity)
    (hpre : firstUnmetPrereq course.prerequisites
      (completedCourses (dictValues s.grades) request.student_id) = none)
    (hsch : firstScheduleConflict s.courses (dictValues s.enrollments) course
      request.student_id request.semester = none) :
    enroll_in_course s request new_id now =
      ( .ok new_id,
        { s with
          enrollments := upsert new_id
            (newEnrollmentRecord new_id request.student_id request.course_id
              request.semester now) s.enrollments
          courses := upsert request.course_id
            ({ course with enrolled_count := course.enrolled_count + 1 }) s.courses } ) := by
  obtain ⟨user, hu2⟩ := Option.isSome_iff_exists.mp hu
  unfold enroll_in_course
  rw [hc, hu2]
  simp only [hdup, Bool.false_eq_true, if_false, if_neg (not_le.mpr hcap), hpre, hsch]
  rfl

theorem force_ok_inversion (s s2 : SysState) (student_id course_id semester new_id : String)
    (now : Nat)
    (h : force_enrollment s student_id course_id semester new_id now = (.ok new_id, s2)) :
    ∃ course, (lookupId s.users student_id).isSome = true ∧
      lookupId s.courses course_id = some course ∧
      s2 = { s with
        enrollments := upsert new_id
          (newEnrollmentRecord new_id student_id course_id semester now) s.enrollments
        courses := upsert course_id
          ({ course with enrolled_count := course.enrolled_count + 1 }) s.courses } := by
  unfold force_enrollment at h
  split at h
  · simp at h
  case _ user hu =>
    split at h
    · simp at h
    case _ course hc =>
      refine ⟨course, by simp [hu], hc, ?_⟩
      simp only [Prod.mk.injEq] at h
      exact h.2.symm

theorem drop_ok_inversion (s s2 : SysState) (enrollment_id : String)
    (h : drop_course s enrollment_id = (.ok, s2)) :
    ∃ e, lookupId s.enrollments enrollment_id = some e ∧
      ( (∃ course, lookupId s.courses e.course_id = some course ∧
          s2 = { s with
            enrollments := upsert enrollment_id ({ e with status := "dropped" }) s.enrollments
            courses := upsert e.course_id
              ({ course with enrolled_count := max 0 (course.enrolled_count - 1) })
              s.courses }) ∨
        (lookupId s.courses e.course_id = none ∧
          s2 = { s with
            enrollments := upsert enrollment_id
              ({ e with status := "dropped" }) s.enrollments }) ) := by
  unfold drop_course at h
  split at h
  · simp at h
  case _ e he =>
    refine ⟨e, he, ?_⟩
    simp only [Prod.mk.injEq, true_and] at h
    split at h
    case _ course hc => exact Or.inl ⟨course, hc, h.symm⟩
    case _ hc => exact Or.inr ⟨hc, h.symm⟩

/-! ## Counting lemmas -/

/-- What one enrollment record contributes to `enrolledCountFor`. -/
def enrollContrib (course_id : String) (e : Enrollment) : Int :=
  if e.course_id == course_id && e.status == "enrolled" then 1 else 0

theorem enrolledCountFor_cons (e : Enrollment) (l : List Enrollment) (cid : String) :
    enrolledCountFor (e :: l) cid = enrollContrib cid e + enrolledCountFor l cid := by
  by_cases h : (e.course_id == cid && e.status == "enrolled") = true
  · simp [enrolledCountFor, enrollContrib, List.filter_cons, h]
    omega
  · simp [enrolledCountFor, enrollContrib, List.filter_cons, h]

theorem enrolledCountFor_append_single (l : List Enrollment) (e : Enrollment) (cid : String) :
    enrolledCountFor (l ++ [e]) cid = enrolledCountFor l cid + enrollContrib cid e := by
  by_cases h : (e.course_id == cid && e.status == "enrolled") = true
  · simp [enrolledCountFor, enrollContrib, List.filter_append, List.filter_cons, h]
  · simp [enrolledCountFor, enrollContrib, List.filter_append, List.filter_cons, h]

theorem enrollContrib_le_count (l : List Enrollment) (e : Enrollment) (cid : String)
    (he : e ∈ l) : enrollContrib cid e ≤ enrolledCountFor l cid := by
  induction l with
  | nil => simp at he
  | cons a rest ih =>
    rw [enrolledCountFor_cons]
    rcases List.mem_cons.mp he with h | h
    · subst h
      have : (0 : Int) ≤ enrolledCountFor rest cid := by
        simp [enrolledCountFor]
      omega
    · have h1 := ih h
      have : (0 : Int) ≤ enrollContrib cid a := by
        unfold enrollContrib
        split <;> omega
      omega

theorem enrolledCountFor_nonneg (l : List Enrollment) (cid : String) :
    0 ≤ enrolledCountFor l cid := by
  simp [enrolledCountFor]

/-- Replacing the first entry at an existing key swaps that entry's
contribution for the new value's. -/
theorem enrolledCountFor_upsert (l : List (String × Enrollment)) (k : String)
    (e v : Enrollment) (hl : lookupId l k = some e) (cid : String) :
    enrolledCountFor (dictValues (upsert k v l)) cid =
      enrolledCountFor (dictValues l) cid - enrollContrib cid e + enrollContrib cid v := by
  induction l with
  | nil => simp [lookupId] at hl
  | cons p rest ih =>
    obtain ⟨k0, w⟩ := p
    by_cases h0 : k0 = k
    · subst h0
      simp only [lookupId, beq_self_eq_true, if_true, Option.some_inj] at hl
      subst hl
      simp only [upsert, beq_self_eq_true, if_true, dictValues, List.map_cons]
      rw [enrolledCountFor_cons, enrolledCountFor_cons]
      omega
    · simp only [lookupId, beq_iff_eq, h0, if_false] at hl
      simp only [upsert, beq_iff_eq, h0, if_false, dictValues, List.map_cons]
      rw [enrolledCountFor_cons, enrolledCountFor_cons]
      have h2 := ih hl
      simp only [dictValues] at h2
      rw [h2]
      omega

/-- Membership in an upserted dict, given distinct keys. -/
theorem mem_upsert_iff {α : Type} (l : List (String × α)) (k : String) (v : α)
    (hnd : (dictKeys l).Nodup) (p : String × α) :
    p ∈ upsert k v l ↔ p = (k, v) ∨ (p ∈ l ∧ Prod.fst p ≠ k) := by
  induction l with
  | nil =>
    constructor
    · intro h
      simp [upsert] at h
      exact Or.inl h
    · intro h
      rcases h with h | h
      · simp [upsert, h]
      · simp at h
  | cons q rest ih =>
    obtain ⟨k0, w⟩ := q
    simp only [dictKeys, List.map_cons, List.nodup_cons] at hnd
    by_cases h0 : k0 = k
    · subst h0
      simp only [upsert, beq_self_eq_true, if_true]
      constructor
      · intro h
        rcases List.mem_cons.mp h with h | h
        · exact Or.inl h
        · refine Or.inr ⟨List.mem_cons_of_mem _ h, ?_⟩
          intro hk
          exact hnd.1 (by simpa [dictKeys, hk] using List.mem_map_of_mem Prod.fst h)
      · intro h
        rcases h with h | h
        · simp [h]
        · rcases List.mem_cons.mp h.1 with h1 | h1
          · exact absurd (by simp [h1]) h.2
          · exact List.mem_cons_of_mem _ h1
    · simp only [upsert, beq_iff_eq, h0, if_false]
      constructor
      · intro h
        rcases List.mem_cons.mp h with h | h
        · exact Or.inr ⟨by simp [h], by simp [h, h0]⟩
        · rcases (ih (by simpa [dictKeys] using hnd.2)).mp h with h2 | h2
          · exact Or.inl h2
          · exact Or.inr ⟨List.mem_cons_of_mem _ h2.1, h2.2⟩
      · intro h
        rcases h with h | h
        · exact List.mem_cons_of_mem _ ((ih (by simpa [dictKeys] using hnd.2)).mpr (Or.inl h))
        · rcases List.mem_cons.mp h.1 with h1 | h1
          · simp [h1]
          · exact List.mem_cons_of_mem _
              ((ih (by simpa [dictKeys] using hnd.2)).mpr (Or.inr ⟨h1, h.2⟩))

theorem lookupId_mem {α : Type} (l : List (String × α)) (k : String) (v : α)
    (h : lookupId l k = some v) : (k, v) ∈ l := by
  induction l with
  | nil => simp [lookupId] at h
  | cons p rest ih =>
    obtain ⟨k0, w⟩ := p
    by_cases h0 : k0 = k
    · subst h0
      simp only [lookupId, beq_self_eq_true, if_true, Option.some_inj] at h
      simp [h]
    · simp only [lookupId, beq_iff_eq, h0, if_false] at h
      exact List.mem_cons_of_mem _ (ih h)

theorem lookupId_isSome_mem_keys {α : Type} (l : List (String × α)) (k : String) (v : α)
    (h : lookupId l k = some v) : k ∈ dictKeys l := by
  by_contra hk
  rw [← lookupId_eq_none_iff] at hk
  rw [h] at hk
  exact Option.noConfusion hk

/-! ## Invariant preservation -/

theorem dictValues_append_single {α : Type} (l : List (String × α)) (k : String) (v : α) :
    dictValues (l ++ [(k, v)]) = dictValues l ++ [v] := by
  simp [dictValues]

/-- Adding a fresh enrolled Enrollment for a stored course and bumping that
course's counter preserves the invariant; this is the success path shared by
`enroll_in_course` and `force_enrollment`. -/
theorem insert_enrollment_preserves (s : SysState) (course : Course) (cid new_id : String)
    (newE : Enrollment) (hc : lookupId s.courses cid = some course)
    (hcid : newE.course_id = cid) (hst : newE.status = "enrolled")
    (hfresh : new_id ∉ dictKeys s.enrollments) (hWF : WF s) (hC : Consistent s) :
    WF { s with
        enrollments := upsert new_id newE s.enrollments
        courses := upsert cid ({ course with enrolled_count := course.enrolled_count + 1 })
          s.courses } ∧
    Consistent { s with
        enrollments := upsert new_id newE s.enrollments
        courses := upsert cid ({ course with enrolled_count := course.enrolled_count + 1 })
          s.courses } := by
  have hmemk : cid ∈ dictKeys s.courses := lookupId_isSome_mem_keys _ _ _ hc
  have happ : upsert new_id newE s.enrollments = s.enrollments ++ [(new_id, newE)] :=
    upsert_of_not_mem _ _ _ hfresh
  constructor
  · constructor
    · rw [happ]
      simp only [dictKeys, List.map_append, List.map_cons, List.map_nil]
      rw [List.nodup_append]
      exact ⟨hWF.1, List.nodup_singleton _, by simpa [dictKeys] using hfresh⟩
    · rw [dictKeys_upsert_mem _ _ _ hmemk]
      exact hWF.2
  · intro p hp
    rw [mem_upsert_iff _ _ _ hWF.2] at hp
    have hvals : dictValues (upsert new_id newE s.enrollments) =
        dictValues s.enrollments ++ [newE] := by
      rw [happ, dictValues_append_single]
    rcases hp with hp | hp
    · subst hp
      simp only
      rw [hvals, enrolledCountFor_append_single]
      have hbase := hC (cid, course) (lookupId_mem _ _ _ hc)
      simp only at hbase
      have hcontrib : enrollContrib cid newE = 1 := by
        simp [enrollContrib, hcid, hst]
      omega
    · have hbase := hC p hp.1
      simp only
      rw [hvals, enrolledCountFor_append_single]
      have hcontrib : enrollContrib (Prod.fst p) newE = 0 := by
        simp [enrollContrib, hcid]
        intro hcontra
        exact absurd hcontra.symm hp.2
      omega

/-- A Drop of a still-enrolled Enrollment preserves the invariant: the
counter is at least 1 there, so the clamp is inert and the decrement matches
the status flip. -/
theorem drop_enrolled_preserves (s s2 : SysState) (enrollment_id : String) (e : Enrollment)
    (he : lookupId s.enrollments enrollment_id = some e)
    (hstatus : e.status = "enrolled")
    (h : drop_course s enrollment_id = (.ok, s2))
    (hWF : WF s) (hC : Consistent s) : WF s2 ∧ Consistent s2 := by
  obtain ⟨e2, he2, hcase⟩ := drop_ok_inversion s s2 enrollment_id h
  rw [he] at he2
  obtain rfl : e = e2 := by injection he2
  have hkeysE : dictKeys (upsert enrollment_id ({ e with status := "dropped" })
      s.enrollments) = dictKeys s.enrollments :=
    dictKeys_upsert_mem _ _ _ (lookupId_isSome_mem_keys _ _ _ he)
  have hcount : ∀ cid2, enrolledCountFor
      (dictValues (upsert enrollment_id ({ e with status := "dropped" }) s.enrollments)) cid2 =
      enrolledCountFor (dictValues s.enrollments) cid2 - enrollContrib cid2 e := by
    intro cid2
    rw [enrolledCountFor_upsert _ _ _ _ he]
    have : enrollContrib cid2 ({ e with status := "dropped" }) = 0 := by
      simp [enrollContrib]
    omega
  rcases hcase with ⟨course, hcourse, rfl⟩ | ⟨hcourse, rfl⟩
  · have hmemc : Prod.fst (e.course_id, course) ∈ dictKeys s.courses :=
      lookupId_isSome_mem_keys _ _ _ hcourse
    have hbase := hC (e.course_id, course) (lookupId_mem _ _ _ hcourse)
    simp only at hbase
    have hone : enrollContrib e.course_id e = 1 := by
      simp [enrollContrib, hstatus]
    have hge : enrollContrib e.course_id e ≤
        enrolledCountFor (dictValues s.enrollments) e.course_id :=
      enrollContrib_le_count _ _ _ (lookupId_mem_values _ _ _ he)
    constructor
    · exact ⟨by rw [hkeysE]; exact hWF.1,
        by rw [dictKeys_upsert_mem _ _ _ hmemc]; exact hWF.2⟩
    · intro p hp
      rw [mem_upsert_iff _ _ _ hWF.2] at hp
      rcases hp with hp | hp
      · subst hp
        simp only
        rw [hcount, hone]
        omega
      · have hb2 := hC p hp.1
        simp only
        rw [hcount]
        have : enrollContrib (Prod.fst p) e = 0 := by
          simp [enrollContrib]
          intro hcontra
          exact absurd hcontra.symm hp.2
        omega
  · constructor
    · exact ⟨by rw [hkeysE]; exact hWF.1, hWF.2⟩
    · intro p hp
      have hb2 := hC p hp
      have hne : Prod.fst p ≠ e.course_id := by
        intro hcontra
        have : e.course_id ∈ dictKeys s.courses := by
          rw [← hcontra]
          exact List.mem_map_of_mem Prod.fst hp
        exact (lookupId_eq_none_iff _ _ |>.mp hcourse) this
      simp only
      rw [hcount]
      have : enrollContrib (Prod.fst p) e = 0 := by
        simp [enrollContrib]
        intro hcontra
        exact absurd hcontra hne.symm
      omega

theorem firstDropStep_preserves (s s2 : SysState) (h : FirstDropStep s s2)
    (hWF : WF s) (hC : Consistent s) : WF s2 ∧ Consistent s2 := by
  cases h with
  | enroll request new_id now hfresh h =>
    obtain ⟨course, hc, _, _, _, _, _, rfl⟩ :=
      enroll_ok_inversion s s2 request new_id now h
    exact insert_enrollment_preserves s course request.course_id new_id _ hc rfl rfl
      hfresh hWF hC
  | drop enrollment_id e he hstatus h =>
    exact drop_enrolled_preserves s s2 enrollment_id e he hstatus h hWF hC
  | force student_id course_id semester new_id now hfresh h =>
    obtain ⟨course, _, hc, rfl⟩ :=
      force_ok_inversion s s2 student_id course_id semester new_id now h
    exact insert_enrollment_preserves s course course_id new_id _ hc rfl rfl hfresh hWF hC

theorem firstDropSeq_preserves (s s2 : SysState)
    (h : Relation.ReflTransGen FirstDropStep s s2)
    (hWF : WF s) (hC : Consistent s) : WF s2 ∧ Consistent s2 := by
  induction h with
  | refl => exact ⟨hWF, hC⟩
  | tail hstep hlast ih =>
    exact firstDropStep_preserves _ _ hlast ih.1 ih.2

instance instDecConsistent (s : SysState) : Decidable (Consistent s) :=
  inferInstanceAs (Decidable (∀ p ∈ s.courses,
    (Prod.snd p).enrolled_count = enrolledCountFor (dictValues s.enrollments) (Prod.fst p)))

instance instDecWF (s : SysState) : Decidable (WF s) :=
  inferInstanceAs (Decidable ((dictKeys s.enrollments).Nodup ∧ (dictKeys s.courses).Nodup))

/-! ## Further store and checker lemmas -/

theorem upsert_upsert_same {α : Type} (l : List (String × α)) (k : String) (v1 v2 : α) :
    upsert k v2 (upsert k v1 l) = upsert k v2 l := by
  induction l with
  | nil => simp [upsert]
  | cons p rest ih =>
    obtain ⟨k0, w⟩ := p
    by_cases h0 : k0 = k
    · subst h0
      simp [upsert]
    · simp [upsert, h0, ih]

theorem upsert_append_last {α : Type} (l : List (String × α)) (k : String) (v w : α)
    (h : k ∉ dictKeys l) : upsert k v (l ++ [(k, w)]) = l ++ [(k, v)] := by
  induction l with
  | nil => simp [upsert]
  | cons p rest ih =>
    obtain ⟨k0, u⟩ := p
    simp only [dictKeys, List.map_cons, List.mem_cons, not_or] at h
    simp only [List.cons_append, upsert, beq_iff_eq]
    rw [if_neg (fun hh => h.1 hh.symm)]
    simp [ih (by simpa [dictKeys] using h.2)]

theorem hasDuplicateEnrollment_append_not_enrolled (vals : List Enrollment) (e : Enrollment)
    (request : EnrollmentRequest) (hst : e.status ≠ "enrolled") :
    hasDuplicateEnrollment (vals ++ [e]) request = hasDuplicateEnrollment vals request := by
  simp [hasDuplicateEnrollment, List.any_append, hst]

theorem firstScheduleConflict_append_not_enrolled (courses : List (String × Course))
    (vals : List Enrollment) (e : Enrollment) (course : Course) (sid sem : String)
    (hst : e.status ≠ "enrolled") :
    firstScheduleConflict courses (vals ++ [e]) course sid sem =
      firstScheduleConflict courses vals course sid sem := by
  unfold firstScheduleConflict
  rw [List.filter_append]
  simp [List.filter_cons, hst]

/-- `findSome?`-style characterization of the schedule-conflict loop: it
yields nothing exactly when no enrolled same-semester enrollment has a stored
course with an overlapping schedule. -/
theorem firstScheduleConflict_eq_none_iff (courses : List (String × Course))
    (vals : List Enrollment) (course : Course) (sid sem : String) :
    firstScheduleConflict courses vals course sid sem = none ↔
      ∀ e ∈ vals, e.student_id = sid → e.semester = sem → e.status = "enrolled" →
        ∀ c2, lookupId courses e.course_id = some c2 →
          has_time_conflict course.schedule c2.schedule = false := by
  unfold firstScheduleConflict
  rw [List.findSome?_eq_none_iff]
  constructor
  · intro h e he h1 h2 h3 c2 hc2
    have hmem : e ∈ vals.filter (fun e =>
        e.student_id == sid && e.semester == sem && e.status == "enrolled") := by
      rw [List.mem_filter]
      exact ⟨he, by simp [h1, h2, h3]⟩
    have hnone := h e hmem
    rw [hc2] at hnone
    dsimp only at hnone
    by_contra hcon
    rw [Bool.not_eq_false] at hcon
    rw [if_pos hcon] at hnone
    exact Option.noConfusion hnone
  · intro h e he
    rw [List.mem_filter] at he
    have hprops := he.2
    simp only [Bool.and_eq_true, beq_iff_eq] at hprops
    cases hc2 : lookupId courses e.course_id with
    | none => simp
    | some c2 =>
      have := h e he.1 hprops.1.1 hprops.1.2 hprops.2 c2 hc2
      simp [this]

theorem firstScheduleConflict_isSome_iff (courses : List (String × Course))
    (vals : List Enrollment) (course : Course) (sid sem : String) :
    (∃ cid, firstScheduleConflict courses vals course sid sem = some cid) ↔
      ∃ e ∈ vals, e.student_id = sid ∧ e.semester = sem ∧ e.status = "enrolled" ∧
        ∃ c2, lookupId courses e.course_id = some c2 ∧
          has_time_conflict course.schedule c2.schedule = true := by
  constructor
  · intro ⟨cid, hcid⟩
    by_contra hcon
    push_neg at hcon
    have : firstScheduleConflict courses vals course sid sem = none := by
      rw [firstScheduleConflict_eq_none_iff]
      intro e he h1 h2 h3 c2 hc2
      have := hcon e he h1 h2 h3 c2 hc2
      exact Bool.not_eq_true _ |>.mp this
    rw [this] at hcid
    exact Option.noConfusion hcid
  · intro ⟨e, he, h1, h2, h3, c2, hc2, hconf⟩
    cases hfs : firstScheduleConflict courses vals course sid sem with
    | some cid => exact ⟨cid, rfl⟩
    | none =>
      rw [firstScheduleConflict_eq_none_iff] at hfs
      have := hfs e he h1 h2 h3 c2 hc2
      rw [hconf] at this
      exact absurd this (by simp)

theorem firstUnmetPrereq_first (l1 l2 : List String) (p : String) (completed : List String)
    (h1 : ∀ q ∈ l1, completed.contains q = true) (h2 : completed.contains p = false) :
    firstUnmetPrereq (l1 ++ p :: l2) completed = some p := by
  induction l1 with
  | nil =>
    have h2m : p ∉ completed := by simpa using h2
    simp [firstUnmetPrereq, List.find?, h2m]
  | cons q rest ih =>
    have hqm : q ∈ completed := by simpa using h1 q (by simp)
    have ih2 := ih (fun r hr => h1 r (List.mem_cons_of_mem _ hr))
    simp only [firstUnmetPrereq] at ih2 ⊢
    rw [List.cons_append, List.find?_cons_of_neg]
    · exact ih2
    · simp [hqm]

/-! ## Concrete records for witnesses and counterexamples -/

def sampleCourse (id schedule : String) (capacity enrolled_count : Int)
    (prerequisites : List String) : Course :=
  { id := id
    course_code := id
    name := id
    description := ""
    instructor_id := "f1"
    instructor_name := "F"
    capacity := capacity
    enrolled_count := enrolled_count
    schedule := schedule
    location := "L"
    prerequisites := prerequisites
    department := "D"
    credits := 3 }

def sampleUser (id : String) : User :=
  { id := id, username := id, email := id, role := .student, full_name := id }

def sampleEnrollment (id sid cid sem status : String) : Enrollment :=
  { id := id
    student_id := sid
    course_id := cid
    semester := sem
    status := status
    enrollment_date := 0 }

def sampleGrade (id sid cid grade status : String) : Grade :=
  { id := id
    student_id := sid
    course_id := cid
    grade := grade
    semester := "S"
    status := status
    submitted_by := "f1" }

/-! ## Claim C1 -/

def stateC1 : SysState :=
  { users := []
    courses := [("c1", sampleCourse "c1" "MWF 9:00" 30 2 [])]
    enrollments := [("eA", sampleEnrollment "eA" "s1" "c1" "F24" "enrolled"),
                    ("eB", sampleEnrollment "eB" "s2" "c1" "F24" "enrolled")]
    grades := [] }

def stateC1b : SysState := (drop_course stateC1 "eA").2

def stateC1c : SysState := (drop_course stateC1b "eA").2

/-- Claim C1 (amended): starting from a state in which every course's
`enrolled_count` equals the number of Enrollments for it with status
"enrolled", after any sequence of successful Enroll, Drop, and ForceEnroll
operations in which each Drop targets an enrollment whose status is still
"enrolled", every course's `enrolled_count` again equals that number.  (As
stated the claim is false: a second Drop of the same enrollment is also
successful and breaks the invariant, see the counterexample.) -/
theorem claim_c1_invariant (s s2 : SysState) (hWF : WF s) (hC : Consistent s)
    (h : Relation.ReflTransGen FirstDropStep s s2) : Consistent s2 :=
  (firstDropSeq_preserves s s2 h hWF hC).2

/-- Witness for `claim_c1_invariant`: a concrete consistent two-enrollment
state stays consistent through a first Drop. -/
theorem claim_c1_invariant_witness :
    WF stateC1 ∧ Consistent stateC1 ∧ Consistent stateC1b :=
  ⟨by decide, by decide,
    claim_c1_invariant stateC1 stateC1b (by decide) (by decide)
      (Relation.ReflTransGen.single
        (FirstDropStep.drop stateC1 stateC1b "eA"
          (sampleEnrollment "eA" "s1" "c1" "F24" "enrolled") (by decide) (by decide)
          (by decide)))⟩

/-- Claim C1 as stated is false: dropping enrollment "eA" twice is two
successful Drop operations, and the second one decrements c1's counter again
while the set of enrolled Enrollments is unchanged, so the final state is
inconsistent. -/
theorem claim_c1_counterexample :
    Consistent stateC1 ∧ SuccStep stateC1 stateC1b ∧ SuccStep stateC1b stateC1c ∧
      ¬ Consistent stateC1c :=
  ⟨by decide, SuccStep.drop stateC1 stateC1b "eA" (by decide),
    SuccStep.drop stateC1b stateC1c "eA" (by decide), by decide⟩

/-! ## Claim C2 -/

/-- Claim C2: an Enroll that fails any check returns the state unchanged —
no Enrollment is created and no course's enrolled_count moves — and in
particular an Enroll that reaches the capacity check of a course whose
enrolled_count equals its capacity fails with CourseFull and changes
nothing. -/
theorem claim_c2_failed_enroll_frame (s : SysState) (request : EnrollmentRequest)
    (new_id : String) (now : Nat) :
    (∀ out s2, enroll_in_course s request new_id now = (out, s2) →
      (∀ eid, out ≠ EnrollOutcome.ok eid) → s2 = s) ∧
    (∀ course, lookupId s.courses request.course_id = some course →
      (lookupId s.users request.student_id).isSome = true →
      hasDuplicateEnrollment (dictValues s.enrollments) request = false →
      course.enrolled_count = course.capacity →
      enroll_in_course s request new_id now = (EnrollOutcome.courseFull, s)) := by
  constructor
  · intro out s2 h hne
    unfold enroll_in_course at h
    split at h
    · injection h with h1 h2
      exact h2.symm
    split at h
    · injection h with h1 h2
      exact h2.symm
    split at h
    · injection h with h1 h2
      exact h2.symm
    split at h
    · injection h with h1 h2
      exact h2.symm
    split at h
    · injection h with h1 h2
      exact h2.symm
    split at h
    · injection h with h1 h2
      exact h2.symm
    · injection h with h1 h2
      exact absurd h1.symm (hne new_id)
  · intro course hc hu hdup hcap
    obtain ⟨user, hu2⟩ := Option.isSome_iff_exists.mp hu
    unfold enroll_in_course
    rw [hc, hu2]
    simp only [hdup, Bool.false_eq_true, if_false]
    rw [if_pos (le_of_eq hcap.symm)]

def stateC2 : SysState :=
  { users := [("s1", sampleUser "s1")]
    courses := [("c1", sampleCourse "c1" "MWF 9:00" 1 1 [])]
    enrollments := [("eB", sampleEnrollment "eB" "s2" "c1" "F24" "enrolled")]
    grades := [] }

def reqC2 : EnrollmentRequest :=
  { student_id := "s1", course_id := "c1", semester := "F24" }

/-- Witness for `claim_c2_failed_enroll_frame`: enrolling into the full
course c1 (capacity 1, enrolled_count 1) fails with CourseFull and leaves
the state untouched. -/
theorem claim_c2_witness :
    enroll_in_course stateC2 reqC2 "n1" 0 = (EnrollOutcome.courseFull, stateC2) :=
  (claim_c2_failed_enroll_frame stateC2 reqC2 "n1" 0).2
    (sampleCourse "c1" "MWF 9:00" 1 1 []) (by decide) (by decide) (by decide) (by decide)

/-! ## Claim C3 -/

/-- Claim C3: with the student and course both present, the checks fire in
the order duplicate, capacity, prerequisites, schedule, and the first
failing check's error is returned; in particular an unmet prerequisite
together with a full course yields CourseFull, not PrerequisiteNotMet. -/
theorem claim_c3_check_order (s : SysState) (request : EnrollmentRequest)
    (new_id : String) (now : Nat) (course : Course) (user : User)
    (hc : lookupId s.courses request.course_id = some course)
    (hu : lookupId s.users request.student_id = some user) :
    (hasDuplicateEnrollment (dictValues s.enrollments) request = true →
      enroll_in_course s request new_id now = (EnrollOutcome.alreadyEnrolled, s)) ∧
    (hasDuplicateEnrollment (dictValues s.enrollments) request = false →
      course.enrolled_count ≥ course.capacity →
      enroll_in_course s request new_id now = (EnrollOutcome.courseFull, s)) ∧
    (∀ prereq, hasDuplicateEnrollment (dictValues s.enrollments) request = false →
      course.enrolled_count < course.capacity →
      firstUnmetPrereq course.prerequisites
        (completedCourses (dictValues s.grades) request.student_id) = some prereq →
      enroll_in_course s request new_id now = (EnrollOutcome.prerequisiteNotMet prereq, s)) ∧
    (∀ cid, hasDuplicateEnrollment (dictValues s.enrollments) request = false →
      course.enrolled_count < course.capacity →
      firstUnmetPrereq course.prerequisites
        (completedCourses (dictValues s.grades) request.student_id) = none →
      firstScheduleConflict s.courses (dictValues s.enrollments) course
        request.student_id request.semester = some cid →
      enroll_in_course s request new_id now = (EnrollOutcome.scheduleConflict cid, s)) ∧
    (∀ prereq, hasDuplicateEnrollment (dictValues s.enrollments) request = false →
      course.enrolled_count ≥ course.capacity →
      firstUnmetPrereq course.prerequisites
        (completedCourses (dictValues s.grades) request.student_id) = some prereq →
      enroll_in_course s request new_id now = (EnrollOutcome.courseFull, s)) := by
  refine ⟨?_, ?_, ?_, ?_, ?_⟩
  · intro hdup
    unfold enroll_in_course
    rw [hc, hu]
    simp [hdup]
  · intro hdup hcap
    unfold enroll_in_course
    rw [hc, hu]
    simp only [hdup, Bool.false_eq_true, if_false]
    rw [if_pos hcap]
  · intro prereq hdup hcap hpre
    unfold enroll_in_course
    rw [hc, hu]
    simp only [hdup, Bool.false_eq_true, if_false, if_neg (not_le.mpr hcap), hpre]
  · intro cid hdup hcap hpre hsch
    unfold enroll_in_course
    rw [hc, hu]
    simp only [hdup, Bool.false_eq_true, if_false, if_neg (not_le.mpr hcap), hpre, hsch]
  · intro prereq hdup hcap hpre
    unfold enroll_in_course
    rw [hc, hu]
    simp only [hdup, Bool.false_eq_true, if_false]
    rw [if_pos hcap]

def stateC3 : SysState :=
  { users := [("s1", sampleUser "s1")]
    courses := [("cs201", sampleCourse "cs201" "TTh 11:00" 25 25 ["cs101"])]
    enrollments := []
    grades := [] }

def reqC3 : EnrollmentRequest :=
  { student_id := "s1", course_id := "cs201", semester := "F24" }

/-- Witness for `claim_c3_check_order`: cs201 is at capacity (25/25) and the
student has not completed the prerequisite cs101, yet the error is
CourseFull because the capacity check precedes the prerequisite check. -/
theorem claim_c3_witness :
    enroll_in_course stateC3 reqC3 "n1" 0 = (EnrollOutcome.courseFull, stateC3) :=
  ((claim_c3_check_order stateC3 reqC3 "n1" 0
      (sampleCourse "cs201" "TTh 11:00" 25 25 ["cs101"]) (sampleUser "s1")
      (by decide) (by decide)).2.2.2.2) "cs101" (by decide) (by decide) (by decide)

/-! ## Claim C4 -/

/-- Claim C4: ForceEnroll on an existing student and course always succeeds
with no conflict check — it records a new Enrollment with status "enrolled"
and bumps the course's enrolled_count by one, with no reference to capacity;
a missing student or course yields the corresponding NotFound error with the
state unchanged. -/
theorem claim_c4_force_enrollment (s : SysState)
    (student_id course_id semester new_id : String) (now : Nat) :
    (∀ course, (lookupId s.users student_id).isSome = true →
      lookupId s.courses course_id = some course →
      force_enrollment s student_id course_id semester new_id now =
        ( ForceOutcome.ok new_id,
          { s with
            enrollments := upsert new_id
              (newEnrollmentRecord new_id student_id course_id semester now) s.enrollments
            courses := upsert course_id
              ({ course with enrolled_count := course.enrolled_count + 1 }) s.courses } )) ∧
    (lookupId s.users student_id = none →
      force_enrollment s student_id course_id semester new_id now =
        (ForceOutcome.studentNotFound, s)) ∧
    (∀ user, lookupId s.users student_id = some user →
      lookupId s.courses course_id = none →
      force_enrollment s student_id course_id semester new_id now =
        (ForceOutcome.courseNotFound, s)) := by
  refine ⟨?_, ?_, ?_⟩
  · intro course hu hc
    obtain ⟨user, hu2⟩ := Option.isSome_iff_exists.mp hu
    unfold force_enrollment
    rw [hu2, hc]
    rfl
  · intro hu
    unfold force_enrollment
    rw [hu]
  · intro user hu hc
    unfold force_enrollment
    rw [hu, hc]

def stateC4 : SysState :=
  { users := [("s1", sampleUser "s1")]
    courses := [("c1", sampleCourse "c1" "MWF 9:00" 1 1 [])]
    enrollments := [("eB", sampleEnrollment "eB" "s2" "c1" "F24" "enrolled")]
    grades := [] }

/-- Witness for `claim_c4_force_enrollment`: force-enrolling into c1, which
is already at capacity (1/1), still succeeds and pushes enrolled_count to
2. -/
theorem claim_c4_witness :
    force_enrollment stateC4 "s1" "c1" "F24" "n1" 0 =
      ( ForceOutcome.ok "n1",
        { stateC4 with
          enrollments := upsert "n1" (newEnrollmentRecord "n1" "s1" "c1" "F24" 0)
            stateC4.enrollments
          courses := upsert "c1"
            ({ sampleCourse "c1" "MWF 9:00" 1 1 [] with
                enrolled_count := (sampleCourse "c1" "MWF 9:00" 1 1 []).enrolled_count + 1 })
            stateC4.courses } ) :=
  (claim_c4_force_enrollment stateC4 "s1" "c1" "F24" "n1" 0).1
    (sampleCourse "c1" "MWF 9:00" 1 1 []) (by decide) (by decide)

/-! ## Claim C5 -/

/-- Evaluation of `drop_course` when the enrollment and its course both
exist. -/
theorem drop_course_eq_of_lookups (s : SysState) (enrollment_id : String)
    (e : Enrollment) (course : Course)
    (he : lookupId s.enrollments enrollment_id = some e)
    (hc : lookupId s.courses e.course_id = some course) :
    drop_course s enrollment_id =
      ( DropOutcome.ok,
        { s with
          enrollments := upsert enrollment_id ({ e with status := "dropped" })
            s.enrollments
          courses := upsert e.course_id
            ({ course with enrolled_count := max 0 (course.enrolled_count - 1) })
            s.courses } ) := by
  unfold drop_course
  rw [he]
  dsimp only
  rw [hc]

/-- Claim C5: Drop of a missing enrollment fails with EnrollmentNotFound and
changes nothing; Drop of an existing enrollment succeeds whatever its status,
marks it "dropped" and clamp-decrements the course's counter; hence a second
Drop of the same enrollment decrements the counter again. -/
theorem claim_c5_drop (s : SysState) (enrollment_id : String) :
    (lookupId s.enrollments enrollment_id = none →
      drop_course s enrollment_id = (DropOutcome.enrollmentNotFound, s)) ∧
    (∀ e course, lookupId s.enrollments enrollment_id = some e →
      lookupId s.courses e.course_id = some course →
      drop_course s enrollment_id =
        ( DropOutcome.ok,
          { s with
            enrollments := upsert enrollment_id ({ e with status := "dropped" })
              s.enrollments
            courses := upsert e.course_id
              ({ course with enrolled_count := max 0 (course.enrolled_count - 1) })
              s.courses } )) ∧
    (∀ e course, lookupId s.enrollments enrollment_id = some e →
      lookupId s.courses e.course_id = some course →
      (drop_course (drop_course s enrollment_id).2 enrollment_id).1 = DropOutcome.ok ∧
      ∃ course2,
        lookupId (drop_course (drop_course s enrollment_id).2 enrollment_id).2.courses
          e.course_id = some course2 ∧
        course2.enrolled_count = max 0 (max 0 (course.enrolled_count - 1) - 1)) := by
  have hnone : lookupId s.enrollments enrollment_id = none →
      drop_course s enrollment_id = (DropOutcome.enrollmentNotFound, s) := by
    intro hn
    unfold drop_course
    rw [hn]
  refine ⟨hnone, fun e course he hc => drop_course_eq_of_lookups s enrollment_id e course he hc,
    ?_⟩
  intro e course he hc
  rw [drop_course_eq_of_lookups s enrollment_id e course he hc]
  have hstep2 := drop_course_eq_of_lookups
    { s with
      enrollments := upsert enrollment_id ({ e with status := "dropped" }) s.enrollments
      courses := upsert e.course_id
        ({ course with enrolled_count := max 0 (course.enrolled_count - 1) }) s.courses }
    enrollment_id ({ e with status := "dropped" })
    ({ course with enrolled_count := max 0 (course.enrolled_count - 1) })
    (lookupId_upsert_self _ _ _) (lookupId_upsert_self _ _ _)
  rw [hstep2]
  exact ⟨rfl, _, lookupId_upsert_self _ _ _, rfl⟩

def stateC5 : SysState :=
  { users := []
    courses := [("c1", sampleCourse "c1" "MWF 9:00" 30 5 [])]
    enrollments := [("eA", sampleEnrollment "eA" "s1" "c1" "F24" "enrolled")]
    grades := [] }

/-- Witness for `claim_c5_drop`: dropping enrollment "eA" twice in a row
still returns success the second time. -/
theorem claim_c5_witness :
    (drop_course (drop_course stateC5 "eA").2 "eA").1 = DropOutcome.ok :=
  ((claim_c5_drop stateC5 "eA").2.2
    (sampleEnrollment "eA" "s1" "c1" "F24" "enrolled")
    (sampleCourse "c1" "MWF 9:00" 30 5 []) (by decide) (by decide)).1

/-! ## Claim C6 -/

/-- Dropping the enrollment a fresh Enroll just created undoes the Enroll
completely when the course's counter started nonnegative: the course map
returns to its old value and the only trace is the dropped enrollment
record. -/
theorem enroll_then_drop_state (s : SysState) (request : EnrollmentRequest)
    (nid1 : String) (now1 : Nat) (course : Course)
    (hc : lookupId s.courses request.course_id = some course)
    (hnonneg : 0 ≤ course.enrolled_count)
    (hfresh1 : nid1 ∉ dictKeys s.enrollments) :
    drop_course
      { s with
        enrollments := upsert nid1
          (newEnrollmentRecord nid1 request.student_id request.course_id
            request.semester now1) s.enrollments
        courses := upsert request.course_id
          ({ course with enrolled_count := course.enrolled_count + 1 }) s.courses }
      nid1 =
    ( DropOutcome.ok,
      { s with
        enrollments := s.enrollments ++
          [(nid1, { newEnrollmentRecord nid1 request.student_id request.course_id
              request.semester now1 with status := "dropped" })] } ) := by
  have hstep := drop_course_eq_of_lookups
    { s with
      enrollments := upsert nid1
        (newEnrollmentRecord nid1 request.student_id request.course_id
          request.semester now1) s.enrollments
      courses := upsert request.course_id
        ({ course with enrolled_count := course.enrolled_count + 1 }) s.courses }
    nid1
    (newEnrollmentRecord nid1 request.student_id request.course_id request.semester now1)
    ({ course with enrolled_count := course.enrolled_count + 1 })
    (lookupId_upsert_self _ _ _) (lookupId_upsert_self _ _ _)
  rw [hstep]
  congr 1
  congr 1
  · show upsert request.course_id
        ({ course with enrolled_count := max 0 (course.enrolled_count + 1 - 1) })
        (upsert request.course_id
          ({ course with enrolled_count := course.enrolled_count + 1 }) s.courses) =
      s.courses
    have hval : max 0 (course.enrolled_count + 1 - 1) = course.enrolled_count := by omega
    rw [hval, upsert_upsert_same]
    exact upsert_lookup_eq _ _ _ hc
  · show upsert nid1
        ({ newEnrollmentRecord nid1 request.student_id request.course_id
            request.semester now1 with status := "dropped" })
        (upsert nid1
          (newEnrollmentRecord nid1 request.student_id request.course_id
            request.semester now1) s.enrollments) =
      s.enrollments ++
        [(nid1, { newEnrollmentRecord nid1 request.student_id request.course_id
            request.semester now1 with status := "dropped" })]
    rw [upsert_upsert_same]
    exact upsert_of_not_mem _ _ _ hfresh1

/-- Claim C6 (amended): when an Enroll succeeds from a state in which the
target course's enrolled_count is nonnegative, dropping the enrollment it
created and enrolling again both succeed — but the final enrolled_count is
one more than its value before the first Enroll (its value right after the
first Enroll), not equal to it as the claim states. -/
theorem claim_c6_enroll_drop_enroll (s s2 : SysState) (request : EnrollmentRequest)
    (nid1 nid2 : String) (now1 now2 : Nat) (course : Course)
    (hc : lookupId s.courses request.course_id = some course)
    (hnonneg : 0 ≤ course.enrolled_count)
    (hfresh1 : nid1 ∉ dictKeys s.enrollments)
    (h1 : enroll_in_course s request nid1 now1 = (EnrollOutcome.ok nid1, s2)) :
    (drop_course s2 nid1).1 = DropOutcome.ok ∧
    (enroll_in_course (drop_course s2 nid1).2 request nid2 now2).1 =
      EnrollOutcome.ok nid2 ∧
    ∃ course3,
      lookupId (enroll_in_course (drop_course s2 nid1).2 request nid2 now2).2.courses
        request.course_id = some course3 ∧
      course3.enrolled_count = course.enrolled_count + 1 := by
  obtain ⟨course0, hc0, hu, hdup, hcap, hpre, hsch, hs2⟩ :=
    enroll_ok_inversion s s2 request nid1 now1 h1
  rw [hc] at hc0
  obtain rfl : course = course0 := by
    injection hc0 with h2
  subst hs2
  have hdrop := enroll_then_drop_state s request nid1 now1 course hc hnonneg hfresh1
  have hdupE : hasDuplicateEnrollment
      (dictValues (s.enrollments ++
        [(nid1, { newEnrollmentRecord nid1 request.student_id request.course_id
            request.semester now1 with status := "dropped" })])) request = false := by
    rw [dictValues_append_single, hasDuplicateEnrollment_append_not_enrolled]
    · exact hdup
    · exact fun hcon => by simp at hcon
  have hschE : firstScheduleConflict s.courses
      (dictValues (s.enrollments ++
        [(nid1, { newEnrollmentRecord nid1 request.student_id request.course_id
            request.semester now1 with status := "dropped" })]))
      course request.student_id request.semester = none := by
    rw [dictValues_append_single, firstScheduleConflict_append_not_enrolled]
    · exact hsch
    · exact fun hcon => by simp at hcon
  have henr2 := enroll_ok_construction
    { s with
      enrollments := s.enrollments ++
        [(nid1, { newEnrollmentRecord nid1 request.student_id request.course_id
            request.semester now1 with status := "dropped" })] }
    request nid2 now2 course hc hu hdupE hcap hpre hschE
  refine ⟨?_, ?_, ?_⟩
  · rw [hdrop]
  · rw [hdrop]
    dsimp only
    rw [henr2]
  · rw [hdrop]
    dsimp only
    rw [henr2]
    dsimp only
    exact ⟨_, lookupId_upsert_self _ _ _, rfl⟩

def stateC6 : SysState :=
  { users := [("s1", sampleUser "s1")]
    courses := [("c1", sampleCourse "c1" "MWF 9:00" 2 0 [])]
    enrollments := []
    grades := [] }

def reqC6 : EnrollmentRequest :=
  { student_id := "s1", course_id := "c1", semester := "F24" }

def stateC6b : SysState := (enroll_in_course stateC6 reqC6 "n1" 0).2

def stateC6c : SysState := (drop_course stateC6b "n1").2

def stateC6d : SysState := (enroll_in_course stateC6c reqC6 "n2" 0).2

/-- Claim C6 as stated is false: from a state where c1 has enrolled_count 0,
Enroll-Drop-Enroll all succeed, but the final enrolled_count is 1, not the
original 0. -/
theorem claim_c6_counterexample :
    (enroll_in_course stateC6 reqC6 "n1" 0).1 = EnrollOutcome.ok "n1" ∧
    (drop_course stateC6b "n1").1 = DropOutcome.ok ∧
    (enroll_in_course stateC6c reqC6 "n2" 0).1 = EnrollOutcome.ok "n2" ∧
    (lookupId stateC6.courses "c1").map Course.enrolled_count = some 0 ∧
    (lookupId stateC6d.courses "c1").map Course.enrolled_count = some 1 :=
  ⟨by decide, by decide, by decide, by decide, by decide⟩

/-- Witness for `claim_c6_enroll_drop_enroll` at the concrete state of the
counterexample. -/
theorem claim_c6_witness :
    (drop_course stateC6b "n1").1 = DropOutcome.ok ∧
    (enroll_in_course (drop_course stateC6b "n1").2 reqC6 "n2" 0).1 =
      EnrollOutcome.ok "n2" :=
  ⟨(claim_c6_enroll_drop_enroll stateC6 stateC6b reqC6 "n1" "n2" 0 0
      (sampleCourse "c1" "MWF 9:00" 2 0 []) (by decide) (by decide) (by decide)
      (by decide)).1,
   (claim_c6_enroll_drop_enroll stateC6 stateC6b reqC6 "n1" "n2" 0 0
      (sampleCourse "c1" "MWF 9:00" 2 0 []) (by decide) (by decide) (by decide)
      (by decide)).2.1⟩

/-! ## Claim C7 -/

/-- Claim C7: the schedule-conflict predicate holds exactly when some
character of the first whitespace-delimited token of one schedule occurs in
the first token of the other (empty or all-whitespace schedules giving the
empty token), and during Enroll — once the duplicate, capacity and
prerequisite checks pass — a ScheduleConflict is reported exactly when some
other enrolled same-semester enrollment of the student has a stored course
whose schedule conflicts in this sense. -/
theorem claim_c7_schedule_check (s : SysState) (request : EnrollmentRequest)
    (new_id : String) (now : Nat) (course : Course) (user : User)
    (hc : lookupId s.courses request.course_id = some course)
    (hu : lookupId s.users request.student_id = some user)
    (hdup : hasDuplicateEnrollment (dictValues s.enrollments) request = false)
    (hcap : course.enrolled_count < course.capacity)
    (hpre : firstUnmetPrereq course.prerequisites
      (completedCourses (dictValues s.grades) request.student_id) = none) :
    (∀ sch1 sch2 : String, has_time_conflict sch1 sch2 = true ↔
      ∃ c, c ∈ (firstToken sch1).toList ∧ c ∈ (firstToken sch2).toList) ∧
    (firstToken "" = "" ∧ firstToken " \t " = "") ∧
    ((∃ cid, (enroll_in_course s request new_id now).1 =
        EnrollOutcome.scheduleConflict cid) ↔
      ∃ e ∈ dictValues s.enrollments, e.student_id = request.student_id ∧
        e.semester = request.semester ∧ e.status = "enrolled" ∧
        ∃ c2, lookupId s.courses e.course_id = some c2 ∧
          has_time_conflict course.schedule c2.schedule = true) := by
  refine ⟨?_, ⟨by decide, by decide⟩, ?_⟩
  · intro sch1 sch2
    simp [has_time_conflict, List.any_eq_true]
  · cases hfs : firstScheduleConflict s.courses (dictValues s.enrollments) course
        request.student_id request.semester with
    | some cid =>
      have henroll : enroll_in_course s request new_id now =
          (EnrollOutcome.scheduleConflict cid, s) := by
        unfold enroll_in_course
        rw [hc, hu]
        simp only [hdup, Bool.false_eq_true, if_false, if_neg (not_le.mpr hcap), hpre, hfs]
      constructor
      · intro _
        exact (firstScheduleConflict_isSome_iff s.courses (dictValues s.enrollments) course
          request.student_id request.semester).mp ⟨cid, hfs⟩
      · intro _
        exact ⟨cid, by rw [henroll]⟩
    | none =>
      have henroll := enroll_ok_construction s request new_id now course hc
        (by simp [hu]) hdup hcap hpre hfs
      constructor
      · intro ⟨cid, hcid⟩
        rw [henroll] at hcid
        exact absurd hcid (by simp)
      · intro hex
        obtain ⟨cid, hcid⟩ := (firstScheduleConflict_isSome_iff s.courses
          (dictValues s.enrollments) course request.student_id request.semester).mpr hex
        rw [hfs] at hcid
        exact Option.noConfusion hcid

def stateC7 : SysState :=
  { users := [("s1", sampleUser "s1")]
    courses := [("c1", sampleCourse "c1" "WF 9:00" 10 0 []),
                ("c2", sampleCourse "c2" "MWF 10:00" 10 1 [])]
    enrollments := [("e2", sampleEnrollment "e2" "s1" "c2" "F24" "enrolled")]
    grades := [] }

def reqC7 : EnrollmentRequest :=
  { student_id := "s1", course_id := "c1", semester := "F24" }

/-- Witness for `claim_c7_schedule_check`: its hypotheses hold at a concrete
state in which the student already takes c2 ("MWF ...") and requests c1
("WF ..."), and the first-token facts follow. -/
theorem claim_c7_witness :
    firstToken "" = "" ∧ firstToken " \t " = "" :=
  (claim_c7_schedule_check stateC7 reqC7 "n1" 0 (sampleCourse "c1" "WF 9:00" 10 0 [])
    (sampleUser "s1") (by decide) (by decide) (by decide) (by decide) (by decide)).2.1

/-! ## Claim C8 -/

/-- Claim C8: a prerequisite counts as completed exactly when the student
has a Grade record for it with status "submitted" and grade in {A, B, C, D},
and the first course id in `course.prerequisites` that is not completed
makes Enroll fail with PrerequisiteNotMet for that course id. -/
theorem claim_c8_prerequisites (s : SysState) (request : EnrollmentRequest)
    (new_id : String) (now : Nat) (course : Course) (user : User)
    (hc : lookupId s.courses request.course_id = some course)
    (hu : lookupId s.users request.student_id = some user)
    (hdup : hasDuplicateEnrollment (dictValues s.enrollments) request = false)
    (hcap : course.enrolled_count < course.capacity) :
    (∀ p, p ∈ completedCourses (dictValues s.grades) request.student_id ↔
      ∃ g ∈ dictValues s.grades, g.student_id = request.student_id ∧
        g.course_id = p ∧ g.status = "submitted" ∧
        (g.grade = "A" ∨ g.grade = "B" ∨ g.grade = "C" ∨ g.grade = "D")) ∧
    (∀ p l1 l2, course.prerequisites = l1 ++ p :: l2 →
      (∀ q ∈ l1, q ∈ completedCourses (dictValues s.grades) request.student_id) →
      p ∉ completedCourses (dictValues s.grades) request.student_id →
      enroll_in_course s request new_id now =
        (EnrollOutcome.prerequisiteNotMet p, s)) := by
  constructor
  · intro p
    unfold completedCourses
    rw [List.mem_map]
    constructor
    · rintro ⟨g, hg, rfl⟩
      rw [List.mem_filter] at hg
      have h2 := hg.2
      simp only [Bool.and_eq_true, beq_iff_eq, Bool.or_eq_true] at h2
      exact ⟨g, hg.1, h2.1.1, rfl, h2.1.2, by tauto⟩
    · rintro ⟨g, hg, h1, rfl, h3, h4⟩
      refine ⟨g, ?_, rfl⟩
      rw [List.mem_filter]
      refine ⟨hg, ?_⟩
      simp only [Bool.and_eq_true, beq_iff_eq, Bool.or_eq_true]
      exact ⟨⟨h1, h3⟩, by tauto⟩
  · intro p l1 l2 hsplit hbefore hunmet
    have hpre : firstUnmetPrereq course.prerequisites
        (completedCourses (dictValues s.grades) request.student_id) = some p := by
      rw [hsplit]
      exact firstUnmetPrereq_first l1 l2 p _
        (fun q hq => by simpa using hbefore q hq) (by simpa using hunmet)
    unfold enroll_in_course
    rw [hc, hu]
    simp only [hdup, Bool.false_eq_true, if_false, if_neg (not_le.mpr hcap), hpre]

def stateC8 : SysState :=
  { users := [("s1", sampleUser "s1")]
    courses := [("c2", sampleCourse "c2" "TTh 2:00" 10 0 ["cs100", "cs150"])]
    enrollments := []
    grades := [("g1", sampleGrade "g1" "s1" "cs100" "A" "submitted"),
               ("g2", sampleGrade "g2" "s1" "cs150" "F" "submitted")] }

def reqC8 : EnrollmentRequest :=
  { student_id := "s1", course_id := "c2", semester := "F24" }

/-- Witness for `claim_c8_prerequisites`: the student passed cs100 with an A
but failed cs150, so Enroll into c2 (prerequisites [cs100, cs150]) reports
PrerequisiteNotMet for cs150, the first unmet one. -/
theorem claim_c8_witness :
    enroll_in_course stateC8 reqC8 "n1" 0 =
      (EnrollOutcome.prerequisiteNotMet "cs150", stateC8) :=
  (claim_c8_prerequisites stateC8 reqC8 "n1" 0
    (sampleCourse "c2" "TTh 2:00" 10 0 ["cs100", "cs150"]) (sampleUser "s1")
    (by decide) (by decide) (by decide) (by decide)).2
    "cs150" ["cs100"] [] (by decide) (by decide) (by decide)

/-! ## Claim C9 -/

/-- Claim C9: a successful Enroll appends exactly one Enrollment record with
the requested student, course, semester and status "enrolled", bumps only
the target course's enrolled_count by one leaving its other fields intact,
and leaves users, grades and every other course untouched. -/
theorem claim_c9_enroll_frame (s s2 : SysState) (request : EnrollmentRequest)
    (new_id : String) (now : Nat)
    (hfresh : new_id ∉ dictKeys s.enrollments)
    (h : enroll_in_course s request new_id now = (EnrollOutcome.ok new_id, s2)) :
    s2.users = s.users ∧ s2.grades = s.grades ∧
    s2.enrollments = s.enrollments ++
      [(new_id, newEnrollmentRecord new_id request.student_id request.course_id
        request.semester now)] ∧
    (∃ course, lookupId s.courses request.course_id = some course ∧
      lookupId s2.courses request.course_id =
        some ({ course with enrolled_count := course.enrolled_count + 1 })) ∧
    (∀ k, k ≠ request.course_id → lookupId s2.courses k = lookupId s.courses k) := by
  obtain ⟨course, hc, _, _, _, _, _, rfl⟩ :=
    enroll_ok_inversion s s2 request new_id now h
  refine ⟨rfl, rfl, upsert_of_not_mem _ _ _ hfresh,
    ⟨course, hc, lookupId_upsert_self _ _ _⟩, ?_⟩
  intro k hk
  exact lookupId_upsert_ne _ _ _ _ hk

def stateC9 : SysState :=
  { users := [("s1", sampleUser "s1")]
    courses := [("c1", sampleCourse "c1" "MWF 9:00" 3 1 []),
                ("c9", sampleCourse "c9" "TTh 2:00" 5 4 [])]
    enrollments := [("eB", sampleEnrollment "eB" "s2" "c1" "F24" "enrolled")]
    grades := [("g1", sampleGrade "g1" "s2" "c0" "A" "submitted")] }

def reqC9 : EnrollmentRequest :=
  { student_id := "s1", course_id := "c1", semester := "F24" }

def stateC9b : SysState := (enroll_in_course stateC9 reqC9 "n1" 0).2

/-- Witness for `claim_c9_enroll_frame` at a concrete successful Enroll. -/
theorem claim_c9_witness :
    stateC9b.users = stateC9.users ∧ stateC9b.grades = stateC9.grades ∧
    stateC9b.enrollments = stateC9.enrollments ++
      [("n1", newEnrollmentRecord "n1" "s1" "c1" "F24" 0)] ∧
    lookupId stateC9b.courses "c9" = lookupId stateC9.courses "c9" :=
  ⟨(claim_c9_enroll_frame stateC9 stateC9b reqC9 "n1" 0 (by decide) (by decide)).1,
   (claim_c9_enroll_frame stateC9 stateC9b reqC9 "n1" 0 (by decide) (by decide)).2.1,
   (claim_c9_enroll_frame stateC9 stateC9b reqC9 "n1" 0 (by decide) (by decide)).2.2.1,
   (claim_c9_enroll_frame stateC9 stateC9b reqC9 "n1" 0 (by decide)
      (by decide)).2.2.2.2 "c9" (by decide)⟩

/-! ## Claim C10 -/

/-- Claim C10: Drop of an existing enrollment whose course record is absent
still succeeds: the enrollment's status becomes "dropped" and the course map
— hence every enrolled_count — is untouched. -/
theorem claim_c10_drop_missing_course (s : SysState) (enrollment_id : String)
    (e : Enrollment)
    (he : lookupId s.enrollments enrollment_id = some e)
    (hc : lookupId s.courses e.course_id = none) :
    drop_course s enrollment_id =
      ( DropOutcome.ok,
        { s with
          enrollments := upsert enrollment_id ({ e with status := "dropped" })
            s.enrollments } ) := by
  unfold drop_course
  rw [he]
  dsimp only
  rw [hc]

def stateC10 : SysState :=
  { users := []
    courses := [("c1", sampleCourse "c1" "MWF 9:00" 30 5 [])]
    enrollments := [("eX", sampleEnrollment "eX" "s1" "ghost" "F24" "enrolled")]
    grades := [] }

/-- Witness for `claim_c10_drop_missing_course`: enrollment "eX" references
the nonexistent course "ghost"; dropping it succeeds and leaves the course
dict unchanged. -/
theorem claim_c10_witness :
    drop_course stateC10 "eX" =
      ( DropOutcome.ok,
        { stateC10 with
          enrollments := upsert "eX"
            ({ sampleEnrollment "eX" "s1" "ghost" "F24" "enrolled" with
                status := "dropped" }) stateC10.enrollments } ) :=
  claim_c10_drop_missing_course stateC10 "eX"
    (sampleEnrollment "eX" "s1" "ghost" "F24" "enrolled") (by decide) (by decide)

end NexusEnroll
